import Mathlib

/-!
Shallow embedding of the session / reconnection engine of `aiophyn`
(`src/aiophyn/mqtt.py`), covering the `MQTTClient` class: message dispatch
(`_on_message`), connection-info fetch (`get_mqtt_info`), handler
registration (`add_event_handler`), subscription/acknowledgment tracking
(`subscribe`, `_subscribe_with_ack`, `_on_subscribe`), the disconnect
callback (`_on_disconnect`) and the reconnect loop (`_do_reconnect`).

Python dictionaries are modelled as association lists with unique keys,
asyncio events as `Bool` (set / not set), tasks as `Option Unit` handles,
and the transport / network environment as outcome oracles supplied to the
functions that interact with it.
-/

namespace Aiophyn

/-- Decidable equality for `Except`, needed to settle closed claim instances
by evaluation. -/
def exceptDecEq {ε σ : Type} [DecidableEq ε] [DecidableEq σ] :
    (x y : Except ε σ) → Decidable (x = y)
  | .error a, .error b =>
      if h : a = b then isTrue (h ▸ rfl)
      else isFalse fun e => h (by injection e)
  | .error _, .ok _ => isFalse fun e => by injection e
  | .ok _, .error _ => isFalse fun e => by injection e
  | .ok a, .ok b =>
      if h : a = b then isTrue (h ▸ rfl)
      else isFalse fun e => h (by injection e)

instance {ε σ : Type} [DecidableEq ε] [DecidableEq σ] : DecidableEq (Except ε σ) :=
  exceptDecEq

/-- Python-level exceptions that the modelled code can raise. -/
inductive PyErr where
  | unboundLocal (name : String)
  | keyError (key : String)
  | exception (msg : String)
  | requestError (msg : String)
  deriving Repr, DecidableEq

/-! ### Message dispatcher: `MQTTClient._on_message` (mqtt.py lines 431-448) -/

/-- Equality-based embedding of `str.startswith(pre)`, kept structurally
recursive over the character lists so closed instances evaluate. -/
def charsStartWith : List Char → List Char → Bool
  | _, [] => true
  | [], _ :: _ => false
  | c :: cs, d :: ds => c = d && charsStartWith cs ds

/-- Embedding of Python `str.split("/")`: splitting an empty string yields
one empty segment, and every `/` starts a new segment. -/
def splitOnSlash : List Char → List (List Char)
  | [] => [[]]
  | c :: cs =>
      let r := splitOnSlash cs
      if c = '/' then [] :: r
      else
        match r with
        | [] => [[c]]
        | h :: t => (c :: h) :: t

/-- Routing-key extraction of `_on_message`: topics under
`prd/app_subscriptions/` yield their third `/`-separated segment as the
device id, all other topics yield none. -/
def deviceIdOf (topic : String) : Option String :=
  if charsStartWith topic.data "prd/app_subscriptions/".data then
    -- index 2 always exists here: the guarded head already contains two slashes
    some (String.mk ((splitOnSlash topic.data).getD 2 []))
  else
    none

/-- Embedding of `_on_message`.  `parsed` is the result of `json.loads` on the
decoded payload (`none` = `JSONDecodeError` was raised and caught).  The
returned list holds the scheduled handler invocations `(handler, device_id,
data)` in registration order.  When parsing failed the local variable `data`
was never assigned, so the first evaluation of `h(device_id, data)` in the
handler loop raises `UnboundLocalError`; with no registered handler the loop
body never runs and the callback returns normally. -/
def on_message (J : Type) (updateHandlers : List Nat) (topic : String)
    (parsed : Option J) : Except PyErr (List (Nat × Option String × J)) :=
  let device_id := deviceIdOf topic
  match parsed with
  | some data => .ok (updateHandlers.map fun h => (h, device_id, data))
  | none =>
      match updateHandlers with
      | [] => .ok []
      | _ :: _ => .error (.unboundLocal "data")

/-! ### Connection-info fetch: `MQTTClient.get_mqtt_info` (mqtt.py lines 197-213) -/

/-- Character class `[a-zA-Z0-9.\-]` of the host group in the regex of
`get_mqtt_info`. -/
def isHostChar (c : Char) : Bool :=
  c.isAlpha || c.isDigit || c = '.' || c = '-'

/-- Embedding of `re.match(r"wss:\/\/([a-zA-Z0-9\.\-]+)(\/mqtt?.*)", url)`:
the match is anchored at the start, the host group greedily takes the maximal
run of host characters (backtracking can never succeed because `/` is outside
the class), and the path group must then start with `/mqt` and extends up to
the first newline (`.` does not match `\n`). -/
def wssMatch (url : String) : Option (String × String) :=
  let cs := url.data
  if charsStartWith cs "wss://".data then
    let rest := cs.drop 6
    let host := rest.takeWhile isHostChar
    let tail := rest.drop host.length
    if host.length > 0 && charsStartWith tail "/mqt".data then
      some (String.mk host, String.mk (tail.takeWhile fun c => c ≠ '\n'))
    else none
  else none

/-- Embedding of `get_mqtt_info`.  `requestResult` is the outcome of
`self.api._request(...)` (`.error` = the request raised).  The bare `except:`
branch only *creates* `Exception("Could not get WebSocket/MQTT url from API")`
without raising it, so on a failed request control falls through and
`wss_data["wss_url"]` raises `UnboundLocalError`; a response without the
`"wss_url"` key raises `KeyError`; a url the regex rejects raises a plain
`Exception`. -/
def get_mqtt_info (requestResult : Except Unit (List (String × String))) :
    Except PyErr (String × String) :=
  let wss_data : Option (List (String × String)) :=
    match requestResult with
    | .ok d => some d
    | .error _ => none
  match wss_data with
  | none => .error (.unboundLocal "wss_data")
  | some d =>
      match d.lookup "wss_url" with
      | none => .error (.keyError "wss_url")
      | some url =>
          match wssMatch url with
          | none => .error (.exception "Could not find WebSocket/MQTT url")
          | some m => .ok m

/-! ### Handler registry: `MQTTClient.add_event_handler` (mqtt.py lines 145-154) -/

/-- The `_handlers` dictionary, kind name to ordered list of targets. -/
abbrev Handlers := List (String × List Nat)

/-- Initial value of `self._handlers` (mqtt.py line 145). -/
def initHandlers : Handlers :=
  [("connect", []), ("disconnect", []), ("update", [])]

/-- In-place mutation `hs[ty].append`, modelled as replacing the value stored
under an existing key. -/
def handlersSet (hs : Handlers) (ty : String) (l : List Nat) : Handlers :=
  hs.map fun p => if p.1 = ty then (ty, l) else p

/-- Embedding of `add_event_handler`.  Returns the new registry and the
Python return value (`some false` for an unknown kind, `some true` for an
already-registered target, `none` for the implicit `None` after `append`). -/
def add_event_handler (hs : Handlers) (ty : String) (target : Nat) :
    Handlers × Option Bool :=
  match hs.lookup ty with
  | none => (hs, some false)
  | some l =>
      if target ∈ l then (hs, some true)
      else (handlersSet hs ty (l ++ [target]), none)

/-! ### Client state (`MQTTClient.__init__`, mqtt.py lines 110-145)

Only the fields the session / reconnection engine mutates are modelled.
`next_mid` and `next_evt` are the transport's message-id generator and a
supply of fresh `asyncio.Event` identities; `evt_sets` records, in order,
every event identity on which `.set()` has been called. -/

/-- Value stored in `self.pending_acks`: either the plain topic string
(old format, written by `subscribe`) or the `(topic, ack_evt)` tuple
(new format, written by `_subscribe_with_ack`). -/
inductive PendingInfo where
  | legacy (topic : String)
  | withEvt (topic : String) (evt : Nat)
  deriving Repr, DecidableEq

/-- The topic carried by a pending-acknowledgment entry. -/
def PendingInfo.topic : PendingInfo → String
  | .legacy t => t
  | .withEvt t _ => t

/-- Mutable state of `MQTTClient` relevant to the claims. -/
structure ClientState where
  pending_acks : List (Nat × PendingInfo)
  topics : List String
  connect_evt : Bool
  reconnect_evt : Bool
  disconnect_evt : Option Bool
  connect_task : Option Unit
  reconnect_timer : Option Nat
  next_mid : Nat
  next_evt : Nat
  evt_sets : List Nat
  deriving Repr, DecidableEq

/-- Python dictionary store `d[k] = v`: overwrite in place if the key exists,
else append (insertion order is preserved by `dict`). -/
def dictInsert (d : List (Nat × PendingInfo)) (k : Nat) (v : PendingInfo) :
    List (Nat × PendingInfo) :=
  if (d.lookup k).isSome then d.map fun p => if p.1 = k then (k, v) else p
  else d ++ [(k, v)]

/-- Python dictionary `del d[k]`. -/
def dictErase (d : List (Nat × PendingInfo)) (k : Nat) :
    List (Nat × PendingInfo) :=
  d.filter fun p => p.1 ≠ k

/-! ### Acknowledgment callback: `MQTTClient._on_subscribe` (mqtt.py lines 450-478) -/

/-- Embedding of `_on_subscribe` for a SUBACK with message id `mid`: look the
id up in `pending_acks`; if found, add the topic to `topics` unless already
present, set the attached acknowledgment event (new format only) and delete
the entry; an unknown id is only logged.  Returns the event that was set, if
any. -/
def on_subscribe (st : ClientState) (mid : Nat) : ClientState × Option Nat :=
  match st.pending_acks.lookup mid with
  | some pi =>
      let topics' := if pi.topic ∈ st.topics then st.topics else st.topics ++ [pi.topic]
      match pi with
      | .withEvt _ evt =>
          ({ st with topics := topics',
                     evt_sets := st.evt_sets ++ [evt],
                     pending_acks := dictErase st.pending_acks mid }, some evt)
      | .legacy _ =>
          ({ st with topics := topics',
                     pending_acks := dictErase st.pending_acks mid }, none)
  | none => (st, none)

/-! ### Subscribe operations (mqtt.py lines 215-253) -/

/-- Embedding of the fire-and-forget `subscribe`: the transport assigns the
next message id and a legacy pending entry is recorded. -/
def subscribe (st : ClientState) (topic : String) : ClientState × Nat :=
  let msg_id := st.next_mid
  ({ st with next_mid := msg_id + 1,
             pending_acks := dictInsert st.pending_acks msg_id (.legacy topic) },
   msg_id)

/-- Send phase of `_subscribe_with_ack`: a fresh `ack_evt` is created, the
transport assigns the next message id, and on a successful initiation
(`res = MQTT_ERR_SUCCESS = 0`) the `(topic, ack_evt)` entry is stored under
that id; on a failed initiation nothing is recorded.  Returns the new state,
`res` and the message id. -/
def subscribeWithAckSend (st : ClientState) (topic : String) (res : Nat) :
    ClientState × Nat × Nat :=
  let msg_id := st.next_mid
  let evt := st.next_evt
  let st1 := { st with next_mid := msg_id + 1, next_evt := evt + 1 }
  if res ≠ 0 then (st1, res, msg_id)
  else
    ({ st1 with pending_acks := dictInsert st1.pending_acks msg_id (.withEvt topic evt) },
     res, msg_id)

/-- Embedding of `_subscribe_with_ack`: after the send phase, either the
SUBACK arrives within the timeout (the `_on_subscribe` callback runs, the
event is set and the wait completes with `(res, msg_id)`), or the timeout
fires and a `RequestError` is raised.  A failed initiation returns
`(res, msg_id)` immediately without waiting. -/
def subscribe_with_ack (st : ClientState) (topic : String) (res : Nat)
    (ackArrives : Bool) : ClientState × Except PyErr (Nat × Nat) :=
  let s := subscribeWithAckSend st topic res
  if res ≠ 0 then (s.1, .ok (res, s.2.2))
  else if ackArrives then ((on_subscribe s.1 s.2.2).1, .ok (res, s.2.2))
  else (s.1, .error (.requestError ("Subscription ACK timeout for " ++ topic)))

/-! ### Disconnect callback: `MQTTClient._on_disconnect` (mqtt.py lines 277-303) -/

/-- Embedding of `_on_disconnect`.  `connected` is the value of
`self.is_connected()` reported by the transport at callback time.  Returns
the new state and whether a reconnect task was created
(`asyncio.create_task(self._do_reconnect(True))`). -/
def on_disconnect (st : ClientState) (connected : Bool) : ClientState × Bool :=
  match st.disconnect_evt with
  | some _ => ({ st with disconnect_evt := some true, connect_evt := false }, false)
  | none =>
      if connected then
        if st.connect_task.isNone then
          ({ st with reconnect_timer := none, connect_task := some (),
                     connect_evt := false }, true)
        else
          ({ st with reconnect_timer := none, connect_evt := false }, false)
      else ({ st with connect_evt := false }, false)

/-! ### Reconnection engine: `MQTTClient._do_reconnect` (mqtt.py lines 320-429) -/

/-- How a reconnect cycle ended: `success` = `break` after an observed
transport connection, `gaveUp` = the 20-attempt bound was exhausted,
`cancelled` = `asyncio.CancelledError` propagated, `alreadyRunning` = the
guard at the top returned immediately. -/
inductive ReconnectResult where
  | success
  | gaveUp
  | cancelled
  | alreadyRunning
  deriving Repr, DecidableEq

/-- Observable trace of one `_do_reconnect` call: the backoff sleeps
performed (in order), the final value of `connect_attempts`, how the cycle
ended, the topics passed to resubscription and the ones that succeeded. -/
structure ReconnectTrace where
  delays : List Nat
  attempts : Nat
  result : ReconnectResult
  resubAttempted : List String
  resubSucceeded : List String
  deriving Repr, DecidableEq

/-- Environment outcome of one connect attempt: cancellation, a
`TimeoutError` (info fetch or the 2s wait for `connect_evt`), any other
exception, or an observed transport connection together with an oracle
giving each resubscription's `client.subscribe` result code and whether its
SUBACK arrives in time. -/
inductive AttemptOutcome where
  | cancelled
  | timeoutErr
  | connErr
  | connected (oracle : String → Nat × Bool)

/-- Whether an attempt outcome is a caught failure that lets the loop
continue. -/
def AttemptOutcome.isConnFailure : AttemptOutcome → Bool
  | .timeoutErr => true
  | .connErr => true
  | _ => false

/-- `list(set(self.topics))` of mqtt.py line 374, determinised to keep the
first occurrence of each topic. -/
def dedupTopics (l : List String) : List String := l.dedup

/-- Resubscription loop of mqtt.py lines 377-392: call `_subscribe_with_ack`
for each topic, collecting into `successful_subs` the topics whose call
returned `MQTT_ERR_SUCCESS`; a `RequestError` or any other exception is
logged and the loop moves on. -/
def resubscribeAll (oracle : String → Nat × Bool) :
    ClientState → List String → ClientState × List String
  | st, [] => (st, [])
  | st, topic :: rest =>
      let a := oracle topic
      let r := subscribe_with_ack st topic a.1 a.2
      let q := resubscribeAll oracle r.1 rest
      match r.2 with
      | .ok (res, _) => if res = 0 then (q.1, topic :: q.2) else (q.1, q.2)
      | .error _ => (q.1, q.2)

/-- Body run once the transport connection is observed (mqtt.py lines
359-408): `_on_connect` has set `connect_evt` and re-armed the health timer,
every stale `pending_acks` entry is deleted, and the deduplicated topic list
is resubscribed with ack verification.  Returns the final state, the topics
whose resubscription was attempted, and the successful ones. -/
def onConnectSuccess (st : ClientState) (oracle : String → Nat × Bool) :
    ClientState × List String × List String :=
  let st1 := { st with connect_evt := true, reconnect_timer := some 3600,
                       pending_acks := [] }
  let tts := dedupTopics st.topics
  let r := resubscribeAll oracle st1 tts
  (r.1, tts, r.2)

/-- Maximum number of connect attempts per cycle (mqtt.py line 327). -/
def max_attempts : Nat := 20

/-- Value of the throttle variable `t` before the sleep that precedes the
next attempt, as a function of the number `ca` of already-completed attempts
(mqtt.py lines 330 and 336-339: `t` starts at 2.0, is raised to 10.0 once
`connect_attempts > 3` and to 60.0 once `connect_attempts > 6`). -/
def throttle (ca : Nat) : Nat :=
  if ca > 6 then 60 else if ca > 3 then 10 else 2

/-- Retry loop of `_do_reconnect` (mqtt.py lines 333-420).  `outcomes k` is
the environment's outcome of attempt number `k` (1-based).  `t` is the
current throttle value, `ca` the value of `connect_attempts`; the fuel
argument equals `max_attempts - ca`, so fuel 0 is exactly the loop condition
`connect_attempts < max_attempts` failing. -/
def reconnectLoop (outcomes : Nat → AttemptOutcome) :
    Nat → ClientState → Bool → Nat → Nat → ClientState × ReconnectTrace
  | 0, st, _, _, ca => (st, ⟨[], ca, .gaveUp, [], []⟩)
  | fuel + 1, st, first, t, ca =>
      let t' := if ca > 6 then 60 else if ca > 3 then 10 else t
      let slept : List Nat := if first then [] else [t']
      let ca' := ca + 1
      match outcomes ca' with
      | .cancelled => (st, ⟨slept, ca', .cancelled, [], []⟩)
      | .timeoutErr =>
          let r := reconnectLoop outcomes fuel st false t' ca'
          (r.1, { r.2 with delays := slept ++ r.2.delays })
      | .connErr =>
          let r := reconnectLoop outcomes fuel st false t' ca'
          (r.1, { r.2 with delays := slept ++ r.2.delays })
      | .connected oracle =>
          let r := onConnectSuccess st oracle
          (r.1, ⟨slept, ca', .success, r.2.1, r.2.2⟩)

/-- Embedding of `_do_reconnect`: the `reconnect_evt` guard returns at once
if a cycle is already in flight; otherwise the flag is set, the retry loop
runs, and the `finally` block unconditionally clears `reconnect_evt`, resets
`disconnect_evt` to `None` and clears `connect_task`. -/
def do_reconnect (st : ClientState) (outcomes : Nat → AttemptOutcome)
    (first : Bool) : ClientState × ReconnectTrace :=
  if st.reconnect_evt then (st, ⟨[], 0, .alreadyRunning, [], []⟩)
  else
    let st1 := { st with reconnect_evt := true }
    let r := reconnectLoop outcomes max_attempts st1 first 2 0
    ({ r.1 with reconnect_evt := false, disconnect_evt := none,
                connect_task := none },
     r.2)

/-- A burst of `_on_disconnect` callback firings, each with the
`is_connected()` value the transport reports at that moment; returns the
final state and how many reconnect tasks were created in total. -/
def fireDisconnects : ClientState → List Bool → ClientState × Nat
  | st, [] => (st, 0)
  | st, c :: cs =>
      let p := on_disconnect st c
      let q := fireDisconnects p.1 cs
      (q.1, (if p.2 then 1 else 0) + q.2)

/-- A sequence of SUBACK deliveries processed by `_on_subscribe`, returning
the final state and, per delivery, the acknowledgment event that was set. -/
def processAcks : ClientState → List Nat → ClientState × List (Option Nat)
  | st, [] => (st, [])
  | st, m :: ms =>
      let p := on_subscribe st m
      let q := processAcks p.1 ms
      (q.1, p.2 :: q.2)

/-- Pending-acknowledgment map holding, for each `(mid, topic, evt)` entry of
`ents`, a new-format record as left behind by concurrent
`_subscribe_with_ack` calls that are all awaiting their SUBACK. -/
def mkPending (ents : List (Nat × String × Nat)) : List (Nat × PendingInfo) :=
  ents.map fun e => (e.1, .withEvt e.2.1 e.2.2)

/-- Two concurrent `_subscribe_with_ack` calls for the same topic followed by
both SUBACK deliveries in send order. -/
def doubleSubscribe (st : ClientState) (topic : String) : ClientState :=
  let s1 := subscribeWithAckSend st topic 0
  let s2 := subscribeWithAckSend s1.1 topic 0
  let a1 := on_subscribe s2.1 s1.2.2
  (on_subscribe a1.1 s2.2.2).1

/-- Initial client state right after `__init__` and a first `connect`
(mqtt.py lines 110-145): empty bookkeeping, timer armed, no session flags. -/
def initState : ClientState :=
  { pending_acks := [], topics := [], connect_evt := false,
    reconnect_evt := false, disconnect_evt := none, connect_task := none,
    reconnect_timer := some 5, next_mid := 1, next_evt := 0, evt_sets := [] }

/-- Concrete state used to exercise topic restoration: Topic Set entered as
`[b, a, b]` with one stale pending-acknowledgment entry left from before a
drop. -/
def restorationState : ClientState :=
  { initState with
    topics := ["b", "a", "b"], pending_acks := [(0, PendingInfo.legacy "old")] }

/-- Resubscription oracle that acknowledges everything. -/
def allAcked : String → Nat × Bool := fun _ => (0, true)

/-- Attempt outcomes: one timeout, then a transport connection at attempt 2
with every resubscription acknowledged. -/
def restorationOutcomes : Nat → AttemptOutcome :=
  fun j => if j = 2 then .connected allAcked else .timeoutErr

/-! ### Association-list helper lemmas -/

section AssocLemmas

variable {α β : Type} [BEq α] [LawfulBEq α]

theorem lookup_cons_self (k : α) (b : β) (t : List (α × β)) :
    ((k, b) :: t).lookup k = some b := by
  simp [List.lookup]

theorem lookup_cons_ne (k a : α) (b : β) (t : List (α × β)) (h : ¬a = k) :
    ((k, b) :: t).lookup a = t.lookup a := by
  have hb : (a == k) = false := beq_eq_false_iff_ne.mpr h
  simp [List.lookup, hb]

theorem lookup_isSome_iff (l : List (α × β)) (a : α) :
    (l.lookup a).isSome = true ↔ a ∈ l.map Prod.fst := by
  induction l with
  | nil => simp [List.lookup]
  | cons p t ih =>
      rcases p with ⟨k, b⟩
      rw [List.map_cons, List.mem_cons]
      by_cases h : a = k
      · subst h; rw [lookup_cons_self]; simp
      · rw [lookup_cons_ne k a b t h, ih]
        constructor
        · exact fun hm => Or.inr hm
        · rintro (h1 | h1)
          · exact absurd h1 h
          · exact h1

theorem lookup_eq_none_of_not_mem_keys (l : List (α × β)) (a : α)
    (h : a ∉ l.map Prod.fst) : l.lookup a = none := by
  rcases hl : l.lookup a with _ | b
  · rfl
  · exact absurd ((lookup_isSome_iff l a).mp (by simp [hl])) h

theorem lookup_eq_some_of_mem_keys (l : List (α × β)) (a : α)
    (h : a ∈ l.map Prod.fst) : ∃ b, l.lookup a = some b := by
  rcases hl : l.lookup a with _ | b
  · exact absurd ((lookup_isSome_iff l a).mpr h) (by simp [hl])
  · exact ⟨b, rfl⟩

theorem lookup_append_right (l₁ l₂ : List (α × β)) (a : α)
    (h : a ∉ l₁.map Prod.fst) : (l₁ ++ l₂).lookup a = l₂.lookup a := by
  induction l₁ with
  | nil => rfl
  | cons p t ih =>
      rcases p with ⟨k, b⟩
      have hk : ¬a = k := fun e => h (by simp [e])
      rw [List.cons_append, lookup_cons_ne k a b (t ++ l₂) hk]
      exact ih fun hm => h (by simp [hm])

end AssocLemmas

/-! ### Claim theorems -/

/-- C3 (code bug): the spec says a payload that fails to decode as JSON is
logged and dropped without any error reaching the registered `update`
handlers, but `_on_message` only logs and then falls through: with a
registered handler the dispatch loop evaluates the never-assigned local
`data` and raises `UnboundLocalError`; only with no registered handler does
the callback return quietly. -/
theorem on_message_invalid_json_crashes :
    on_message Unit [0] "prd/app_subscriptions/dev42/state" none
      = .error (.unboundLocal "data") ∧
    on_message Unit [] "prd/app_subscriptions/dev42/state" none = .ok [] ∧
    on_message Unit [0] "prd/app_subscriptions/dev42/state" (some ())
      = .ok [(0, some "dev42", ())] := by
  refine ⟨by decide, by decide, by decide⟩

/-- C4 (code bug): `get_mqtt_info` never surfaces a distinguishable typed
error.  When the request raises, the bare `except:` creates an `Exception`
without raising it and the code crashes with `UnboundLocalError` on
`wss_data["wss_url"]`; a missing `wss_url` key raises `KeyError`; a url the
regex rejects raises a plain `Exception`; only a well-formed descriptor
yields the `(host, path)` pair. -/
theorem get_mqtt_info_error_surface :
    get_mqtt_info (.error ()) = .error (.unboundLocal "wss_data") ∧
    get_mqtt_info (.ok [("other", "x")]) = .error (.keyError "wss_url") ∧
    get_mqtt_info (.ok [("wss_url", "https://host/mqtt")])
      = .error (.exception "Could not find WebSocket/MQTT url") ∧
    get_mqtt_info (.ok [("wss_url", "wss://broker.example.com/mqtt?x=1")])
      = .ok ("broker.example.com", "/mqtt?x=1") := by
  refine ⟨by decide, by decide, by decide, by decide⟩

/-- C9 (counterexample): registering for the spec's kind name `"connected"`
is refused (`False` returned, registry unchanged), while the kind the code
actually accepts is `"connect"`. -/
theorem add_event_handler_kind_cex :
    add_event_handler initHandlers "connected" 7 = (initHandlers, some false) ∧
    (add_event_handler initHandlers "connect" 7).1
      = [("connect", [7]), ("disconnect", []), ("update", [])] := by
  refine ⟨by decide, by decide⟩

/-- Replacing the list stored under an existing key is found by `lookup`. -/
theorem lookup_handlersSet_self (hs : Handlers) (ty : String) (l : List Nat)
    (h : ty ∈ hs.map Prod.fst) : (handlersSet hs ty l).lookup ty = some l := by
  induction hs with
  | nil => simp at h
  | cons p t ih =>
      rcases p with ⟨k, v⟩
      show (((if k = ty then (ty, l) else (k, v)) :: handlersSet t ty l).lookup ty)
        = some l
      by_cases hk : k = ty
      · rw [if_pos hk]
        exact lookup_cons_self ty l _
      · rw [if_neg hk, lookup_cons_ne k ty v _ fun e => hk e.symm]
        apply ih
        rw [List.map_cons] at h
        rcases List.mem_cons.mp h with h1 | h1
        · exact absurd h1.symm hk
        · exact h1

/-- C9 (amended): `add_event_handler` accepts registrations for exactly the
kinds `connect`, `disconnect` and `update` (not `connected` / `disconnected`);
it is idempotent by identity of the target (re-registering returns `True`
and leaves the registry unchanged) and a new target is appended at the end,
so registration order determines invocation order. -/
theorem add_event_handler_amended (hs : Handlers) (ty : String) (t : Nat)
    (hkeys : hs.map Prod.fst = ["connect", "disconnect", "update"]) :
    (ty ∉ (["connect", "disconnect", "update"] : List String) →
      add_event_handler hs ty t = (hs, some false)) ∧
    (ty ∈ (["connect", "disconnect", "update"] : List String) →
      ∃ l, hs.lookup ty = some l) ∧
    (∀ l, hs.lookup ty = some l → t ∈ l →
      add_event_handler hs ty t = (hs, some true)) ∧
    (∀ l, hs.lookup ty = some l → t ∉ l →
      (add_event_handler hs ty t).1.lookup ty = some (l ++ [t])) := by
  refine ⟨?_, ?_, ?_, ?_⟩
  · intro hty
    have : hs.lookup ty = none := by
      apply lookup_eq_none_of_not_mem_keys; rw [hkeys]; exact hty
    simp [add_event_handler, this]
  · intro hty
    exact lookup_eq_some_of_mem_keys hs ty (by rw [hkeys]; exact hty)
  · intro l hl hmem
    simp [add_event_handler, hl, hmem]
  · intro l hl hmem
    have hk : ty ∈ hs.map Prod.fst := by
      have := (lookup_isSome_iff hs ty).mp (by simp [hl])
      exact this
    simp only [add_event_handler, hl]
    simp [hmem, lookup_handlersSet_self hs ty (l ++ [t]) hk]

/-- Witness for the amended C9 theorem at the initial registry. -/
theorem add_event_handler_amended_witness :
    (("nosuch" : String) ∉ (["connect", "disconnect", "update"] : List String) →
      add_event_handler initHandlers "nosuch" 3 = (initHandlers, some false)) ∧
    (("nosuch" : String) ∈ (["connect", "disconnect", "update"] : List String) →
      ∃ l, initHandlers.lookup "nosuch" = some l) ∧
    (∀ l, initHandlers.lookup "nosuch" = some l → 3 ∈ l →
      add_event_handler initHandlers "nosuch" 3 = (initHandlers, some true)) ∧
    (∀ l, initHandlers.lookup "nosuch" = some l → 3 ∉ l →
      (add_event_handler initHandlers "nosuch" 3).1.lookup "nosuch"
        = some (l ++ [3])) :=
  add_event_handler_amended initHandlers "nosuch" 3 rfl

/-- C10: a reconnect cycle that actually starts (the in-progress flag was
clear) always ends with the `finally` block clearing the in-progress flag,
resetting the pending disconnect signal to absent and clearing the stored
task handle, for every possible sequence of attempt outcomes. -/
theorem reconnect_clears_flags (st : ClientState)
    (outcomes : Nat → AttemptOutcome) (first : Bool)
    (h : st.reconnect_evt = false) :
    (do_reconnect st outcomes first).1.reconnect_evt = false ∧
    (do_reconnect st outcomes first).1.disconnect_evt = none ∧
    (do_reconnect st outcomes first).1.connect_task = none := by
  simp [do_reconnect, h]

/-- Witness for C10 at the initial state with always-failing attempts. -/
theorem reconnect_clears_flags_witness :
    (do_reconnect initState (fun _ => .timeoutErr) true).1.reconnect_evt = false ∧
    (do_reconnect initState (fun _ => .timeoutErr) true).1.disconnect_evt = none ∧
    (do_reconnect initState (fun _ => .timeoutErr) true).1.connect_task = none :=
  reconnect_clears_flags initState (fun _ => .timeoutErr) true rfl

/-! ### Reconnect-loop helper lemmas -/

theorem on_disconnect_task_kept (st : ClientState) (c : Bool)
    (h : st.connect_task.isSome) :
    (on_disconnect st c).2 = false ∧
    (on_disconnect st c).1.connect_task = st.connect_task := by
  obtain ⟨u, hu⟩ := Option.isSome_iff_exists.mp h
  rcases hd : st.disconnect_evt with _ | b
  · cases c <;> simp [on_disconnect, hd, hu]
  · simp [on_disconnect, hd]

theorem fireDisconnects_no_new_task (cs : List Bool) :
    ∀ st : ClientState, st.connect_task.isSome = true →
      (fireDisconnects st cs).2 = 0 := by
  induction cs with
  | nil => intro st _; rfl
  | cons c cs ih =>
      intro st h
      have hk := on_disconnect_task_kept st c h
      have h2 := ih (on_disconnect st c).1 (by rw [hk.2]; exact h)
      simp [fireDisconnects, hk.1, h2]

theorem reconnectLoop_attempts_le (outcomes : Nat → AttemptOutcome) :
    ∀ (fuel : Nat) (st : ClientState) (first : Bool) (t ca : Nat),
      (reconnectLoop outcomes fuel st first t ca).2.attempts ≤ ca + fuel := by
  intro fuel
  induction fuel with
  | zero => intro st first t ca; simp [reconnectLoop]
  | succ fuel ih =>
      intro st first t ca
      cases ho : outcomes (ca + 1) with
      | cancelled => simp [reconnectLoop, ho]
      | connected oracle => simp [reconnectLoop, ho]
      | timeoutErr =>
          have := ih st false (if 6 < ca then 60 else if 3 < ca then 10 else t) (ca + 1)
          simp [reconnectLoop, ho]
          omega
      | connErr =>
          have := ih st false (if 6 < ca then 60 else if 3 < ca then 10 else t) (ca + 1)
          simp [reconnectLoop, ho]
          omega

theorem reconnectLoop_allfail (outcomes : Nat → AttemptOutcome) :
    ∀ (fuel : Nat) (st : ClientState) (first : Bool) (t ca : Nat),
      (∀ k, ca < k → k ≤ ca + fuel → (outcomes k).isConnFailure = true) →
      (reconnectLoop outcomes fuel st first t ca).1 = st ∧
      (reconnectLoop outcomes fuel st first t ca).2.attempts = ca + fuel ∧
      (reconnectLoop outcomes fuel st first t ca).2.result = .gaveUp := by
  intro fuel
  induction fuel with
  | zero => intro st first t ca _; simp [reconnectLoop]
  | succ fuel ih =>
      intro st first t ca h
      have h1 : (outcomes (ca + 1)).isConnFailure = true := h (ca + 1) (by omega) (by omega)
      cases ho : outcomes (ca + 1) with
      | cancelled => rw [ho] at h1; simp [AttemptOutcome.isConnFailure] at h1
      | connected oracle => rw [ho] at h1; simp [AttemptOutcome.isConnFailure] at h1
      | timeoutErr =>
          have ih' := ih st false (if 6 < ca then 60 else if 3 < ca then 10 else t)
            (ca + 1) (fun k hk1 hk2 => h k (by omega) (by omega))
          simp [reconnectLoop, ho]
          exact ⟨ih'.1, by rw [ih'.2.1]; omega, ih'.2.2⟩
      | connErr =>
          have ih' := ih st false (if 6 < ca then 60 else if 3 < ca then 10 else t)
            (ca + 1) (fun k hk1 hk2 => h k (by omega) (by omega))
          simp [reconnectLoop, ho]
          exact ⟨ih'.1, by rw [ih'.2.1]; omega, ih'.2.2⟩

theorem throttle_of_le3 (ca : Nat) (h : ca ≤ 3) : throttle ca = 2 := by
  unfold throttle
  rw [if_neg (by omega), if_neg (by omega)]

theorem throttle_step (ca t : Nat) (ht : ca ≤ 3 → t = 2) :
    (if ca > 6 then 60 else if ca > 3 then 10 else t) = throttle ca := by
  unfold throttle
  split_ifs with h6 h3
  · rfl
  · rfl
  · exact ht (by omega)

theorem reconnectLoop_allfail_delays (outcomes : Nat → AttemptOutcome) :
    ∀ (fuel : Nat) (st : ClientState) (t ca : Nat),
      (ca ≤ 3 → t = 2) →
      (∀ k, ca < k → k ≤ ca + fuel → (outcomes k).isConnFailure = true) →
      (reconnectLoop outcomes fuel st false t ca).2.delays
        = (List.range' ca fuel).map throttle := by
  intro fuel
  induction fuel with
  | zero => intro st t ca _ _; simp [reconnectLoop]
  | succ fuel ih =>
      intro st t ca ht h
      have h1 : (outcomes (ca + 1)).isConnFailure = true := h (ca + 1) (by omega) (by omega)
      have htt := throttle_step ca t ht
      have ih' := ih st (throttle ca) (ca + 1)
        (fun hc => throttle_of_le3 ca (by omega))
        (fun k hk1 hk2 => h k (by omega) (by omega))
      cases ho : outcomes (ca + 1) with
      | cancelled => rw [ho] at h1; simp [AttemptOutcome.isConnFailure] at h1
      | connected oracle => rw [ho] at h1; simp [AttemptOutcome.isConnFailure] at h1
      | timeoutErr =>
          simp [reconnectLoop, ho, htt, ih', List.range'_succ]
      | connErr =>
          simp [reconnectLoop, ho, htt, ih', List.range'_succ]

/-! ### C1, C2, C7 claim theorems -/

/-- C1: a reconnect cycle makes at most 20 connect attempts; when all 20 end
without a successful transport connection the cycle logs, stops (result
`gaveUp`, not a propagated exception) and leaves no task scheduled. -/
theorem reconnect_bounded_retries (st : ClientState)
    (outcomes : Nat → AttemptOutcome)
    (hre : st.reconnect_evt = false)
    (hfail : ∀ k, 1 ≤ k → k ≤ max_attempts → (outcomes k).isConnFailure = true) :
    (∀ (o : Nat → AttemptOutcome) (f : Bool),
        (do_reconnect st o f).2.attempts ≤ max_attempts) ∧
    (do_reconnect st outcomes true).2.attempts = max_attempts ∧
    (do_reconnect st outcomes true).2.result = .gaveUp ∧
    (do_reconnect st outcomes true).1.connect_task = none ∧
    (do_reconnect st outcomes true).1.reconnect_evt = false := by
  have hall := reconnectLoop_allfail outcomes max_attempts
    { st with reconnect_evt := true } true 2 0
    (fun k hk1 hk2 => hfail k (by omega) (by omega))
  refine ⟨?_, ?_, ?_, ?_, ?_⟩
  · intro o f
    have := reconnectLoop_attempts_le o max_attempts { st with reconnect_evt := true } f 2 0
    simp [do_reconnect, hre]
    omega
  · simp [do_reconnect, hre]
    rw [hall.2.1]
    exact Nat.zero_add _
  · simp [do_reconnect, hre, hall.2.2]
  · simp [do_reconnect, hre]
  · simp [do_reconnect, hre]

/-- Witness for C1 at the initial state with every attempt timing out. -/
theorem reconnect_bounded_retries_witness :
    (∀ (o : Nat → AttemptOutcome) (f : Bool),
        (do_reconnect initState o f).2.attempts ≤ max_attempts) ∧
    (do_reconnect initState (fun _ => .timeoutErr) true).2.attempts = max_attempts ∧
    (do_reconnect initState (fun _ => .timeoutErr) true).2.result = .gaveUp ∧
    (do_reconnect initState (fun _ => .timeoutErr) true).1.connect_task = none ∧
    (do_reconnect initState (fun _ => .timeoutErr) true).1.reconnect_evt = false :=
  reconnect_bounded_retries initState (fun _ => .timeoutErr) rfl (fun _ _ _ => rfl)

/-- C2: in a cycle started with `first = True` no sleep precedes the first
attempt; the sleep before attempt `n + 1` is `throttle n`, which is 2s while
at most 3 attempts have completed, 10s once more than 3 have completed, 60s
once more than 6 have completed, stays capped at 60s, and is non-decreasing
over the cycle. -/
theorem reconnect_backoff_schedule (st : ClientState)
    (outcomes : Nat → AttemptOutcome)
    (hre : st.reconnect_evt = false)
    (hfail : ∀ k, 1 ≤ k → k ≤ max_attempts → (outcomes k).isConnFailure = true) :
    (do_reconnect st outcomes true).2.delays
      = (List.range' 1 (max_attempts - 1)).map throttle ∧
    (∀ n, n ≤ 3 → throttle n = 2) ∧
    (∀ n, 3 < n → n ≤ 6 → throttle n = 10) ∧
    (∀ n, 6 < n → throttle n = 60) ∧
    (∀ n, throttle n ≤ 60) ∧
    (∀ m n, m ≤ n → throttle m ≤ throttle n) ∧
    List.Chain' (· ≤ ·) (0 :: (List.range' 1 (max_attempts - 1)).map throttle) := by
  refine ⟨?_, fun n h => throttle_of_le3 n h, ?_, ?_, ?_, ?_, ?_⟩
  · have h1 : (outcomes 1).isConnFailure = true :=
      hfail 1 (by omega) (by show (1 : Nat) ≤ 20; omega)
    have hdel := reconnectLoop_allfail_delays outcomes 19
      { st with reconnect_evt := true } 2 1
      (fun _ => rfl)
      (fun k hk1 hk2 => hfail k (by omega) (by show k ≤ 20; omega))
    cases ho : outcomes 1 with
    | cancelled => rw [ho] at h1; simp [AttemptOutcome.isConnFailure] at h1
    | connected oracle => rw [ho] at h1; simp [AttemptOutcome.isConnFailure] at h1
    | timeoutErr =>
        simp [do_reconnect, hre, max_attempts, reconnectLoop, ho]
        simpa using hdel
    | connErr =>
        simp [do_reconnect, hre, max_attempts, reconnectLoop, ho]
        simpa using hdel
  · intro n h3 h6
    unfold throttle
    rw [if_neg (by omega), if_pos (by omega)]
  · intro n h6
    unfold throttle
    rw [if_pos (by omega)]
  · intro n
    unfold throttle
    split_ifs <;> omega
  · intro m n h
    unfold throttle
    split_ifs <;> omega
  · have hp : List.Pairwise (· ≤ ·)
        (0 :: (List.range' 1 (max_attempts - 1)).map throttle) := by decide
    exact hp.chain'

/-- Witness for C2 at the initial state with every attempt timing out. -/
theorem reconnect_backoff_schedule_witness :
    (do_reconnect initState (fun _ => .timeoutErr) true).2.delays
      = (List.range' 1 (max_attempts - 1)).map throttle ∧
    (∀ n, n ≤ 3 → throttle n = 2) ∧
    (∀ n, 3 < n → n ≤ 6 → throttle n = 10) ∧
    (∀ n, 6 < n → throttle n = 60) ∧
    (∀ n, throttle n ≤ 60) ∧
    (∀ m n, m ≤ n → throttle m ≤ throttle n) ∧
    List.Chain' (· ≤ ·) (0 :: (List.range' 1 (max_attempts - 1)).map throttle) :=
  reconnect_backoff_schedule initState (fun _ => .timeoutErr) rfl (fun _ _ _ => rfl)

/-- C7: at most one reconnect cycle is in flight at a time: a `_do_reconnect`
call while the in-progress flag is set is an immediate no-op, and a burst of
disconnect callbacks while connected (with no locally-requested disconnect
pending) creates exactly one reconnect task however many times the callback
fires. -/
theorem single_reconnect_cycle (st st' : ClientState)
    (outcomes : Nat → AttemptOutcome) (first : Bool) (cs : List Bool)
    (hset : st.reconnect_evt = true)
    (hdc : st'.disconnect_evt = none) (htask : st'.connect_task = none) :
    do_reconnect st outcomes first = (st, ⟨[], 0, .alreadyRunning, [], []⟩) ∧
    (fireDisconnects st' (true :: cs)).2 = 1 := by
  constructor
  · simp [do_reconnect, hset]
  · have h1 : (on_disconnect st' true).2 = true ∧
        (on_disconnect st' true).1.connect_task = some () := by
      simp [on_disconnect, hdc, htask]
    have h2 := fireDisconnects_no_new_task cs (on_disconnect st' true).1
      (by rw [h1.2]; rfl)
    simp [fireDisconnects, h1.1, h2]

/-- Witness for C7: a flagged state ignores a new cycle, and three rapid
disconnect callbacks on a connected idle client create exactly one task. -/
theorem single_reconnect_cycle_witness :
    do_reconnect { initState with reconnect_evt := true }
        (fun _ => .timeoutErr) true
      = ({ initState with reconnect_evt := true },
         ⟨[], 0, .alreadyRunning, [], []⟩) ∧
    (fireDisconnects initState [true, true, false]).2 = 1 :=
  single_reconnect_cycle { initState with reconnect_evt := true } initState
    (fun _ => .timeoutErr) true [true, false] rfl rfl rfl

/-! ### Subscription-tracker helper lemmas -/

theorem lookup_none_of_keys_lt (d : List (Nat × PendingInfo)) (m : Nat)
    (h : ∀ k ∈ d.map Prod.fst, k < m) : d.lookup m = none :=
  lookup_eq_none_of_not_mem_keys d m fun hm => Nat.lt_irrefl m (h m hm)

theorem dictInsert_eq_append (d : List (Nat × PendingInfo)) (k : Nat)
    (v : PendingInfo) (h : d.lookup k = none) : dictInsert d k v = d ++ [(k, v)] := by
  simp [dictInsert, h]

theorem on_subscribe_topics_some (st : ClientState) (mid : Nat) (pi : PendingInfo)
    (hl : st.pending_acks.lookup mid = some pi) :
    ((on_subscribe st mid).1).topics
      = if pi.topic ∈ st.topics then st.topics else st.topics ++ [pi.topic] := by
  cases pi with
  | legacy t => simp [on_subscribe, hl, PendingInfo.topic]
  | withEvt t e => simp [on_subscribe, hl, PendingInfo.topic]

theorem on_subscribe_topics_none (st : ClientState) (mid : Nat)
    (hl : st.pending_acks.lookup mid = none) :
    ((on_subscribe st mid).1).topics = st.topics := by
  simp [on_subscribe, hl]

theorem on_subscribe_topics_nodup (st : ClientState) (mid : Nat)
    (h : st.topics.Nodup) : ((on_subscribe st mid).1).topics.Nodup := by
  rcases hl : st.pending_acks.lookup mid with _ | pi
  · rw [on_subscribe_topics_none st mid hl]; exact h
  · rw [on_subscribe_topics_some st mid pi hl]
    by_cases hm : pi.topic ∈ st.topics
    · rw [if_pos hm]; exact h
    · rw [if_neg hm]
      simp [List.nodup_append, h, hm]

theorem on_subscribe_topics_subset (st : ClientState) (mid : Nat) :
    ∀ x ∈ st.topics, x ∈ ((on_subscribe st mid).1).topics := by
  intro x hx
  rcases hl : st.pending_acks.lookup mid with _ | pi
  · rw [on_subscribe_topics_none st mid hl]; exact hx
  · rw [on_subscribe_topics_some st mid pi hl]
    by_cases hm : pi.topic ∈ st.topics
    · rw [if_pos hm]; exact hx
    · rw [if_neg hm]; exact List.mem_append_left _ hx

theorem on_subscribe_topic_mem (st : ClientState) (mid : Nat) (pi : PendingInfo)
    (hl : st.pending_acks.lookup mid = some pi) :
    pi.topic ∈ ((on_subscribe st mid).1).topics := by
  rw [on_subscribe_topics_some st mid pi hl]
  by_cases hm : pi.topic ∈ st.topics
  · rw [if_pos hm]; exact hm
  · rw [if_neg hm]; exact List.mem_append_right _ (by simp)

theorem subscribeWithAckSend_fields (st : ClientState) (topic : String) :
    (subscribeWithAckSend st topic 0).1.topics = st.topics ∧
    (subscribeWithAckSend st topic 0).1.next_mid = st.next_mid + 1 ∧
    (subscribeWithAckSend st topic 0).1.next_evt = st.next_evt + 1 ∧
    (subscribeWithAckSend st topic 0).2.2 = st.next_mid ∧
    (subscribeWithAckSend st topic 0).1.pending_acks
      = dictInsert st.pending_acks st.next_mid (.withEvt topic st.next_evt) := by
  simp [subscribeWithAckSend]

/-- C8: processing an acknowledgment for a topic already in the Topic Set is
a no-op on the set, the set never acquires a duplicate, and two
subscribe-with-ack calls for the same topic followed by both acknowledgments
leave exactly one entry for that topic. -/
theorem topic_set_idempotent (st : ClientState) (topic : String)
    (hnd : st.topics.Nodup)
    (hfresh : ∀ k ∈ st.pending_acks.map Prod.fst, k < st.next_mid) :
    (∀ mid pi, st.pending_acks.lookup mid = some pi → pi.topic ∈ st.topics →
        ((on_subscribe st mid).1).topics = st.topics) ∧
    (∀ mid, ((on_subscribe st mid).1).topics.Nodup) ∧
    (doubleSubscribe st topic).topics.count topic = 1 := by
  refine ⟨?_, fun mid => on_subscribe_topics_nodup st mid hnd, ?_⟩
  · intro mid pi hl hmem
    rw [on_subscribe_topics_some st mid pi hl, if_pos hmem]
  · obtain ⟨h1t, h1m, h1e, h1mid, h1p⟩ := subscribeWithAckSend_fields st topic
    have hp1 : (subscribeWithAckSend st topic 0).1.pending_acks
        = st.pending_acks ++ [(st.next_mid, .withEvt topic st.next_evt)] := by
      rw [h1p, dictInsert_eq_append _ _ _ (lookup_none_of_keys_lt _ _ hfresh)]
    obtain ⟨h2t, h2m, h2e, h2mid, h2p⟩ :=
      subscribeWithAckSend_fields (subscribeWithAckSend st topic 0).1 topic
    have hl2 : (st.pending_acks
          ++ [(st.next_mid, PendingInfo.withEvt topic st.next_evt)]).lookup
        (st.next_mid + 1) = none := by
      rw [lookup_append_right _ _ _ fun hm => absurd (hfresh _ hm) (by omega)]
      rw [lookup_cons_ne _ _ _ _ (by omega)]
      rfl
    have hp2 : (subscribeWithAckSend (subscribeWithAckSend st topic 0).1
          topic 0).1.pending_acks
        = st.pending_acks ++ [(st.next_mid, .withEvt topic st.next_evt),
            (st.next_mid + 1, .withEvt topic (st.next_evt + 1))] := by
      rw [h2p, h1m, h1e, hp1, dictInsert_eq_append _ _ _ hl2, List.append_assoc]
      rfl
    have hlook1 : (subscribeWithAckSend (subscribeWithAckSend st topic 0).1
          topic 0).1.pending_acks.lookup st.next_mid
        = some (.withEvt topic st.next_evt) := by
      rw [hp2, lookup_append_right _ _ _ fun hm => Nat.lt_irrefl _ (hfresh _ hm)]
      exact lookup_cons_self _ _ _
    have ht2 : (subscribeWithAckSend (subscribeWithAckSend st topic 0).1
        topic 0).1.topics = st.topics := by rw [h2t, h1t]
    have hmem1 : topic ∈ (on_subscribe (subscribeWithAckSend
        (subscribeWithAckSend st topic 0).1 topic 0).1 st.next_mid).1.topics := by
      have := on_subscribe_topic_mem _ st.next_mid _ hlook1
      simpa [PendingInfo.topic] using this
    have hnd1 : (on_subscribe (subscribeWithAckSend
        (subscribeWithAckSend st topic 0).1 topic 0).1 st.next_mid).1.topics.Nodup :=
      on_subscribe_topics_nodup _ _ (by rw [ht2]; exact hnd)
    have hmem2 : topic ∈ (on_subscribe (on_subscribe (subscribeWithAckSend
        (subscribeWithAckSend st topic 0).1 topic 0).1 st.next_mid).1
        (st.next_mid + 1)).1.topics :=
      on_subscribe_topics_subset _ _ topic hmem1
    have hnd2 : (on_subscribe (on_subscribe (subscribeWithAckSend
        (subscribeWithAckSend st topic 0).1 topic 0).1 st.next_mid).1
        (st.next_mid + 1)).1.topics.Nodup :=
      on_subscribe_topics_nodup _ _ hnd1
    show (on_subscribe (on_subscribe (subscribeWithAckSend
        (subscribeWithAckSend st topic 0).1 topic 0).1
        (subscribeWithAckSend st topic 0).2.2).1
        (subscribeWithAckSend (subscribeWithAckSend st topic 0).1
          topic 0).2.2).1.topics.count topic = 1
    rw [h1mid, h2mid, h1m]
    exact List.count_eq_one_of_mem hnd2 hmem2

/-- Witness for C8 at the initial state. -/
theorem topic_set_idempotent_witness :
    (∀ mid pi, initState.pending_acks.lookup mid = some pi →
        pi.topic ∈ initState.topics →
        ((on_subscribe initState mid).1).topics = initState.topics) ∧
    (∀ mid, ((on_subscribe initState mid).1).topics.Nodup) ∧
    (doubleSubscribe initState "prd/app_subscriptions/d1/x").topics.count
      "prd/app_subscriptions/d1/x" = 1 :=
  topic_set_idempotent initState "prd/app_subscriptions/d1/x"
    List.nodup_nil (by simp [initState])

/-! ### Acknowledgment-correlation helper lemmas -/

theorem on_subscribe_withEvt (st : ClientState) (mid : Nat) (t : String) (e : Nat)
    (hl : st.pending_acks.lookup mid = some (.withEvt t e)) :
    on_subscribe st mid
      = ({ st with topics := if t ∈ st.topics then st.topics else st.topics ++ [t],
                   evt_sets := st.evt_sets ++ [e],
                   pending_acks := dictErase st.pending_acks mid }, some e) := by
  simp [on_subscribe, hl, PendingInfo.topic]

theorem lookup_mkPending (ents : List (Nat × String × Nat)) (m : Nat) :
    (mkPending ents).lookup m
      = (ents.lookup m).map fun te => PendingInfo.withEvt te.1 te.2 := by
  induction ents with
  | nil => rfl
  | cons e t ih =>
      rcases e with ⟨k, te⟩
      show (((k, PendingInfo.withEvt te.1 te.2) :: mkPending t).lookup m) = _
      by_cases h : m = k
      · subst h
        rw [lookup_cons_self]
        show _ = (((m, te) :: t).lookup m).map _
        rw [lookup_cons_self]
        rfl
      · rw [lookup_cons_ne _ _ _ _ h, ih]
        show _ = (((k, te) :: t).lookup m).map _
        rw [lookup_cons_ne _ _ _ _ h]

theorem dictErase_mkPending (ents : List (Nat × String × Nat)) (m : Nat) :
    dictErase (mkPending ents) m = mkPending (ents.filter fun e => e.1 ≠ m) := by
  induction ents with
  | nil => rfl
  | cons e t ih =>
      by_cases h : e.1 = m
      · simp [mkPending, dictErase, List.filter_cons, h] at ih ⊢
        exact ih
      · simp [mkPending, dictErase, List.filter_cons, h] at ih ⊢
        exact ih

theorem lookup_filter_ne {β : Type} (ents : List (Nat × β)) (m a : Nat)
    (h : ¬a = m) :
    (ents.filter fun e => e.1 ≠ m).lookup a = ents.lookup a := by
  induction ents with
  | nil => rfl
  | cons e t ih =>
      rcases e with ⟨k, b⟩
      by_cases hk : k = m
      · subst hk
        rw [List.filter_cons_of_neg (by simp)]
        rw [ih, lookup_cons_ne _ _ _ _ h]
      · rw [List.filter_cons_of_pos (by simp [hk])]
        by_cases ha : a = k
        · subst ha; rw [lookup_cons_self, lookup_cons_self]
        · rw [lookup_cons_ne _ _ _ _ ha, lookup_cons_ne _ _ _ _ ha, ih]

theorem keys_filter_ne {β : Type} (ents : List (Nat × β)) (m : Nat) :
    (ents.filter fun e => e.1 ≠ m).map Prod.fst
      = (ents.map Prod.fst).filter fun k => k ≠ m := by
  induction ents with
  | nil => rfl
  | cons e t ih =>
      show ((e :: t).filter fun x => x.1 ≠ m).map Prod.fst
        = (e.1 :: t.map Prod.fst).filter fun k => k ≠ m
      by_cases h : e.1 = m
      · rw [List.filter_cons_of_neg (by simp [h]),
            List.filter_cons_of_neg (by simp [h])]
        exact ih
      · rw [List.filter_cons_of_pos (by simp [h]),
            List.filter_cons_of_pos (by simp [h])]
        rw [List.map_cons, ih]

theorem processAcks_spec (ms : List Nat) :
    ∀ (ents : List (Nat × String × Nat)) (st : ClientState),
      (ents.map Prod.fst).Nodup →
      List.Perm ms (ents.map Prod.fst) →
      st.pending_acks = mkPending ents →
      (processAcks st ms).1.pending_acks = [] ∧
      (processAcks st ms).1.evt_sets
        = st.evt_sets ++ ms.map (fun m => ((ents.lookup m).map Prod.snd).getD 0) ∧
      (processAcks st ms).2 = ms.map fun m => (ents.lookup m).map Prod.snd := by
  induction ms with
  | nil =>
      intro ents st _ hperm hp
      have h0 : ents.map Prod.fst = [] := List.perm_nil.mp hperm.symm
      have h1 : ents = [] := by
        cases ents with
        | nil => rfl
        | cons e t => simp at h0
      subst h1
      simp [processAcks, hp, mkPending]
  | cons m ms ih =>
      intro ents st hnd hperm hp
      obtain ⟨hmem, hrest⟩ := List.cons_perm_iff_perm_erase.mp hperm
      obtain ⟨te, hte⟩ := lookup_eq_some_of_mem_keys ents m hmem
      have hmn : m ∉ ms := by
        have : (m :: ms).Nodup := (hperm.nodup_iff).mpr hnd
        exact (List.nodup_cons.mp this).1
      have hlookP : st.pending_acks.lookup m
          = some (PendingInfo.withEvt te.1 te.2) := by
        rw [hp, lookup_mkPending, hte]; rfl
      have hos := on_subscribe_withEvt st m te.1 te.2 hlookP
      have hperm' : List.Perm ms
          ((ents.filter fun e => e.1 ≠ m).map Prod.fst) := by
        rw [keys_filter_ne]
        have hfe : ((ents.map Prod.fst).filter fun k => k ≠ m)
            = (ents.map Prod.fst).erase m := by
          rw [List.Nodup.erase_eq_filter hnd m]
          apply List.filter_congr
          intro a _
          by_cases hx : a = m <;> simp [hx]
        rw [hfe]
        exact hrest
      have hnd' : ((ents.filter fun e => e.1 ≠ m).map Prod.fst).Nodup := by
        rw [keys_filter_ne]
        exact hnd.filter _
      have hp' : (on_subscribe st m).1.pending_acks
          = mkPending (ents.filter fun e => e.1 ≠ m) := by
        rw [hos]
        show dictErase st.pending_acks m = _
        rw [hp, dictErase_mkPending]
      have ihr := ih (ents.filter fun e => e.1 ≠ m) (on_subscribe st m).1
        hnd' hperm' hp'
      have hmapE : ms.map (fun m' =>
            (((ents.filter fun e => e.1 ≠ m).lookup m').map Prod.snd).getD 0)
          = ms.map fun m' => ((ents.lookup m').map Prod.snd).getD 0 :=
        List.map_congr_left fun a ha => by
          rw [lookup_filter_ne _ _ _ fun e => hmn (by rwa [e] at ha)]
      have hmapR : ms.map (fun m' =>
            ((ents.filter fun e => e.1 ≠ m).lookup m').map Prod.snd)
          = ms.map fun m' => (ents.lookup m').map Prod.snd :=
        List.map_congr_left fun a ha => by
          rw [lookup_filter_ne _ _ _ fun e => hmn (by rwa [e] at ha)]
      have hes : (on_subscribe st m).1.evt_sets = st.evt_sets ++ [te.2] := by
        rw [hos]
      have hr2 : (on_subscribe st m).2 = some te.2 := by rw [hos]
      refine ⟨?_, ?_, ?_⟩
      · show (processAcks (on_subscribe st m).1 ms).1.pending_acks = []
        exact ihr.1
      · show (processAcks (on_subscribe st m).1 ms).1.evt_sets = _
        rw [ihr.2.1, hes, hmapE, List.map_cons, hte, List.append_assoc]
        rfl
      · show (on_subscribe st m).2
            :: (processAcks (on_subscribe st m).1 ms).2 = _
        rw [ihr.2.2, hmapR, hr2, List.map_cons, hte]
        rfl

theorem keys_map_lookup_evt (ents : List (Nat × String × Nat)) :
    (ents.map Prod.fst).Nodup →
    (ents.map Prod.fst).map (fun m => ((ents.lookup m).map Prod.snd).getD 0)
      = ents.map fun e => e.2.2 := by
  induction ents with
  | nil => intro _; rfl
  | cons e t ih =>
      intro hnd
      rcases e with ⟨k, te⟩
      rw [List.map_cons] at hnd
      have h12 := List.nodup_cons.mp hnd
      show (k :: t.map Prod.fst).map _ = te.2 :: t.map _
      rw [List.map_cons]
      congr 1
      · rw [lookup_cons_self]
        rfl
      · have hcg : ∀ a ∈ t.map Prod.fst,
            ((((k, te) :: t).lookup a).map Prod.snd).getD 0
              = ((t.lookup a).map Prod.snd).getD 0 := fun a ha => by
          rw [lookup_cons_ne _ _ _ _ fun e => h12.1 (by rwa [e] at ha)]
        rw [List.map_congr_left hcg]
        exact ih h12.2

/-- C5: with N pending subscribe-with-ack entries under distinct
transport-assigned ids, delivering the N acknowledgments in any permutation
resolves, at each delivery, exactly the waiter registered under that id,
sets every waiter's event exactly once, and removes every matched entry. -/
theorem ack_correlation (ents : List (Nat × String × Nat)) (ms : List Nat)
    (st : ClientState)
    (hmid : (ents.map Prod.fst).Nodup)
    (hevt : (ents.map fun e => e.2.2).Nodup)
    (hperm : List.Perm ms (ents.map Prod.fst))
    (hp : st.pending_acks = mkPending ents)
    (he : st.evt_sets = []) :
    ((processAcks st ms).2 = ms.map fun m => (ents.lookup m).map Prod.snd) ∧
    (∀ p ∈ ents, (processAcks st ms).1.evt_sets.count p.2.2 = 1) ∧
    (processAcks st ms).1.pending_acks = [] := by
  obtain ⟨h1, h2, h3⟩ := processAcks_spec ms ents st hmid hperm hp
  refine ⟨h3, ?_, h1⟩
  intro p hpmem
  rw [h2, he, List.nil_append]
  have hpm : List.Perm
      (ms.map fun m => ((ents.lookup m).map Prod.snd).getD 0)
      ((ents.map Prod.fst).map fun m => ((ents.lookup m).map Prod.snd).getD 0) :=
    hperm.map _
  rw [hpm.count_eq, keys_map_lookup_evt ents hmid]
  exact List.count_eq_one_of_mem hevt (List.mem_map_of_mem _ hpmem)

/-- Witness for C5: two pending entries acknowledged in reverse order. -/
theorem ack_correlation_witness :
    ((processAcks { initState with
          pending_acks := mkPending [(1, ("a", 10)), (2, ("b", 20))] } [2, 1]).2
        = [2, 1].map fun m =>
            ([(1, ("a", 10)), (2, ("b", 20))].lookup m).map Prod.snd) ∧
    (∀ p ∈ [(1, ("a", 10)), (2, ("b", 20))],
        (processAcks { initState with
            pending_acks := mkPending [(1, ("a", 10)), (2, ("b", 20))] }
          [2, 1]).1.evt_sets.count p.2.2 = 1) ∧
    (processAcks { initState with
        pending_acks := mkPending [(1, ("a", 10)), (2, ("b", 20))] }
      [2, 1]).1.pending_acks = [] :=
  ack_correlation [(1, ("a", 10)), (2, ("b", 20))] [2, 1] _
    (by decide) (by decide) (by decide) rfl rfl

/-! ### Reconnect-restoration helper lemmas -/

theorem subscribe_with_ack_acked (st : ClientState) (topic : String) :
    subscribe_with_ack st topic 0 true
      = ((on_subscribe (subscribeWithAckSend st topic 0).1
            (subscribeWithAckSend st topic 0).2.2).1,
         .ok (0, (subscribeWithAckSend st topic 0).2.2)) := by
  simp [subscribe_with_ack]

theorem resubscribeAll_allacked_pending (oracle : String → Nat × Bool)
    (hor : ∀ tp, oracle tp = (0, true)) :
    ∀ (tts : List String) (st : ClientState), st.pending_acks = [] →
      (resubscribeAll oracle st tts).1.pending_acks = [] := by
  intro tts
  induction tts with
  | nil => intro st h; exact h
  | cons topic rest ih =>
      intro st h
      have hp1 : (subscribeWithAckSend st topic 0).1.pending_acks
          = [(st.next_mid, PendingInfo.withEvt topic st.next_evt)] := by
        obtain ⟨_, _, _, _, hpend⟩ := subscribeWithAckSend_fields st topic
        rw [hpend, h]
        rfl
      have hmid := (subscribeWithAckSend_fields st topic).2.2.2.1
      have hlook : (subscribeWithAckSend st topic 0).1.pending_acks.lookup
          (subscribeWithAckSend st topic 0).2.2
          = some (PendingInfo.withEvt topic st.next_evt) := by
        rw [hp1, hmid]
        exact lookup_cons_self _ _ _
      have hos := on_subscribe_withEvt _ _ _ _ hlook
      have hstep : (on_subscribe (subscribeWithAckSend st topic 0).1
          (subscribeWithAckSend st topic 0).2.2).1.pending_acks = [] := by
        rw [hos]
        show dictErase (subscribeWithAckSend st topic 0).1.pending_acks _ = []
        rw [hp1, hmid]
        simp [dictErase]
      have hq := ih (on_subscribe (subscribeWithAckSend st topic 0).1
          (subscribeWithAckSend st topic 0).2.2).1 hstep
      simp only [resubscribeAll, hor topic, subscribe_with_ack_acked st topic]
      simpa using hq

theorem reconnectLoop_first_success (outcomes : Nat → AttemptOutcome)
    (o : String → Nat × Bool) :
    ∀ (fuel : Nat) (st : ClientState) (first : Bool) (t ca k : Nat),
      ca < k → k ≤ ca + fuel →
      (∀ j, ca < j → j < k → (outcomes j).isConnFailure = true) →
      outcomes k = .connected o →
      (reconnectLoop outcomes fuel st first t ca).1 = (onConnectSuccess st o).1 ∧
      (reconnectLoop outcomes fuel st first t ca).2.attempts = k ∧
      (reconnectLoop outcomes fuel st first t ca).2.result = .success ∧
      (reconnectLoop outcomes fuel st first t ca).2.resubAttempted
        = dedupTopics st.topics := by
  intro fuel
  induction fuel with
  | zero => intro st first t ca k h1 h2 _ _; omega
  | succ fuel ih =>
      intro st first t ca k h1 h2 hf hk
      by_cases hek : k = ca + 1
      · subst hek
        simp [reconnectLoop, hk, onConnectSuccess]
      · have hfail1 : (outcomes (ca + 1)).isConnFailure = true :=
          hf (ca + 1) (by omega) (by omega)
        cases ho : outcomes (ca + 1) with
        | cancelled => rw [ho] at hfail1; simp [AttemptOutcome.isConnFailure] at hfail1
        | connected oracle2 =>
            rw [ho] at hfail1; simp [AttemptOutcome.isConnFailure] at hfail1
        | timeoutErr =>
            have ih' := ih st false (if 6 < ca then 60 else if 3 < ca then 10 else t)
              (ca + 1) k (by omega) (by omega)
              (fun j hj1 hj2 => hf j (by omega) hj2) hk
            simp [reconnectLoop, ho]
            exact ⟨ih'.1, ih'.2.1, ih'.2.2.1, ih'.2.2.2⟩
        | connErr =>
            have ih' := ih st false (if 6 < ca then 60 else if 3 < ca then 10 else t)
              (ca + 1) k (by omega) (by omega)
              (fun j hj1 hj2 => hf j (by omega) hj2) hk
            simp [reconnectLoop, ho]
            exact ⟨ih'.1, ih'.2.1, ih'.2.2.1, ih'.2.2.2⟩

/-- C6: when a reconnect cycle observes the transport connected at attempt
`k`, resubscription is attempted for exactly the deduplicated Topic Set (as
a set of topics, independent of insertion order and duplicates), it operates
on cleared pending-acknowledgment bookkeeping (the result does not depend on
the stale entries, and with every acknowledgment delivered no pending entry
survives), and the cycle ends successfully at attempt `k` whatever the
resubscription oracle reports. -/
theorem reconnect_topic_restoration (st : ClientState) (o : String → Nat × Bool)
    (outcomes : Nat → AttemptOutcome) (k : Nat)
    (hre : st.reconnect_evt = false)
    (hk1 : 1 ≤ k) (hk2 : k ≤ max_attempts)
    (hfail : ∀ j, 1 ≤ j → j < k → (outcomes j).isConnFailure = true)
    (hconn : outcomes k = .connected o) :
    (do_reconnect st outcomes true).2.resubAttempted = dedupTopics st.topics ∧
    (dedupTopics st.topics).toFinset = st.topics.toFinset ∧
    (dedupTopics st.topics).Nodup ∧
    (∀ l : List String, List.Perm l st.topics →
        (dedupTopics l).toFinset = (dedupTopics st.topics).toFinset) ∧
    onConnectSuccess st o = onConnectSuccess { st with pending_acks := [] } o ∧
    ((∀ tp, o tp = (0, true)) → (onConnectSuccess st o).1.pending_acks = []) ∧
    (do_reconnect st outcomes true).2.result = .success ∧
    (do_reconnect st outcomes true).2.attempts = k := by
  have hloop := reconnectLoop_first_success outcomes o max_attempts
    { st with reconnect_evt := true } true 2 0 k (by omega) (by omega)
    (fun j hj1 hj2 => hfail j (by omega) hj2) hconn
  refine ⟨?_, ?_, List.nodup_dedup _, ?_, ?_, ?_, ?_, ?_⟩
  · simp [do_reconnect, hre]
    simpa [dedupTopics] using hloop.2.2.2
  · ext a; simp [dedupTopics]
  · intro l hperm
    have e1 : (dedupTopics l).toFinset = l.toFinset := by ext a; simp [dedupTopics]
    have e2 : (dedupTopics st.topics).toFinset = st.topics.toFinset := by
      ext a; simp [dedupTopics]
    rw [e1, e2]
    exact List.toFinset_eq_of_perm _ _ hperm
  · rfl
  · intro hor
    exact resubscribeAll_allacked_pending o hor (dedupTopics st.topics) _ rfl
  · simp [do_reconnect, hre, hloop.2.2.1]
  · simp [do_reconnect, hre, hloop.2.1]

/-- Witness for C6: Topic Set `{b, a}` entered as `[b, a, b]`, a stale
pending entry, one failed attempt, then success at attempt 2 with every
resubscription acknowledged. -/
theorem reconnect_topic_restoration_witness :
    ((do_reconnect restorationState restorationOutcomes true).2.resubAttempted
      = dedupTopics restorationState.topics) ∧
    (dedupTopics restorationState.topics).toFinset
      = restorationState.topics.toFinset ∧
    (dedupTopics restorationState.topics).Nodup ∧
    (∀ l : List String, List.Perm l restorationState.topics →
        (dedupTopics l).toFinset = (dedupTopics restorationState.topics).toFinset) ∧
    onConnectSuccess restorationState allAcked
      = onConnectSuccess { restorationState with pending_acks := [] } allAcked ∧
    ((∀ tp, allAcked tp = (0, true)) →
      (onConnectSuccess restorationState allAcked).1.pending_acks = []) ∧
    ((do_reconnect restorationState restorationOutcomes true).2.result
      = .success) ∧
    ((do_reconnect restorationState restorationOutcomes true).2.attempts = 2) :=
  reconnect_topic_restoration restorationState allAcked restorationOutcomes
    2 rfl (by decide) (by decide)
    (fun j hj1 hj2 => by
      have hj : j = 1 := by omega
      subst hj
      rfl)
    rfl

end Aiophyn
